import Mathlib

/-!
Verification of the `SimTK::Array_<T,X>` container
(`src/trunk/include/SimTKcommon/internal/Array.h`).

The container state is embedded shallowly: machine pointers become a nullness
flag plus the list of constructed elements, the two counters `nUsed` and
`nAllocated` become natural numbers, and the `IndexTraits<X>` specializations
become an `IndexDesc` record of numeric limits.  All size arithmetic from the
source is re-expressed exactly over `Nat` (the source widens to
`unsigned long long` before comparing, which over `Nat` is the identity).
Fallible operations return `Except Err`.
-/

set_option autoImplicit false

namespace SimbodyArray

variable {α : Type}

/-- Numeric limits of an index type `X`, as fixed by the `IndexTraits<X>`
specializations: `maxSize` is `IndexTraits<X>::max_size` and `sizeTypeMax` is
the largest value representable in `IndexTraits<X>::size_type` (arguments of
type `size_type` can never exceed it). -/
structure IndexDesc where
  maxSize : Nat
  sizeTypeMax : Nat
  deriving DecidableEq

/-- Source: `IndexTraits<int>`: `size_type` is `int`, `max_size = 0x7fffffff`.  No
nonnegative `int` value exceeds `max_size`. -/
def intDesc : IndexDesc := { maxSize := 0x7fffffff, sizeTypeMax := 0x7fffffff }

/-- Source: `IndexTraits<unsigned>`: `size_type` is `unsigned`, `max_size = 0x7fffffffU`,
but `unsigned` itself represents values up to `0xffffffff`. -/
def unsignedDesc : IndexDesc := { maxSize := 0x7fffffff, sizeTypeMax := 0xffffffff }

/-- The synchronous error conditions of the design (§7 of the specification):
exceeding the index type's size ceiling, a bad or aliasing source range, a
failed always-on bounds check, and access/removal on an empty container. -/
inductive Err where
  | sizeLimitExceeded
  | invalidRange
  | outOfRange
  | emptyContainerAccess
  deriving DecidableEq

/-- Modelled from the spec: the error-reporting macros `SimTK_ERRCHK`,
`SimTK_ERRCHK3`, `SimTK_ERRCHK3_ALWAYS`, `SimTK_SIZECHECK` and friends are
defined in `SimTKcommon/internal/common.h`, which is not part of this
repository snapshot (only `Array.h` is).  Section 7 of the specification says
every listed error kind is "detected synchronously at the point of the
offending call and reported to the caller immediately (fail-fast)", the one
build-dependent exception being the per-element bounds check of the fast
indexed access, which no claim here exercises.  Accordingly `errCheck ok e k`
continues with `k` when the checked condition `ok` holds and fails with `e`
otherwise. -/
def errCheck {γ : Type} (ok : Bool) (e : Err) (k : Except Err γ) : Except Err γ :=
  if ok then k else .error e

/-- The observable state of an `Array_<T,X>` object (its three data members):
`dataNull` records whether the `data` pointer is null, `elems` lists the
constructed elements `data[0..nUsed)` in index order (so `nUsed` is
`elems.length`), and `nAllocated` is the allocated capacity. -/
structure Arr (α : Type) where
  dataNull : Bool
  elems : List α
  nAllocated : Nat
  deriving DecidableEq

/-- Source: `size()` returns `nUsed`, the number of constructed elements. -/
def Arr.size (a : Arr α) : Nat := a.elems.length

/-- Source: `capacity()` returns `nAllocated`. -/
def Arr.capacity (a : Arr α) : Nat := a.nAllocated

/-- Source: `Array_() : data(0), nUsed(0), nAllocated(0)`, the default constructor. -/
def ctorDefault : Arr α := { dataNull := true, elems := [], nAllocated := 0 }

/-- Source: `minAlloc()`, the smallest allocation made when growing:
`std::min(max_size(), size_type(4))`. -/
def minAlloc (D : IndexDesc) : Nat := min D.maxSize 4

/-- Source: `isSizeOK(n)`: `ull(n) <= ullMaxSize()`.  The source widens both sides to
`unsigned long long` before comparing; over `Nat` the comparison is exact. -/
def isSizeOK (D : IndexDesc) (n : Nat) : Bool := decide (n ≤ D.maxSize)

/-- Source: `isGrowthOK(n)`: `isSizeOK(ullCapacity() + ull(n))`, again computed in
widened arithmetic, hence exactly `capacity + n ≤ max_size` over `Nat`. -/
def isGrowthOK (D : IndexDesc) (a : Arr α) (n : Nat) : Bool :=
  isSizeOK D (a.capacity + n)

/-- Source: `calcNewCapacityForGrowthBy(n, methodName)`: first the unconditional
`SimTK_ERRCHK3_ALWAYS(isGrowthOK(n), ...)` overflow check, then
`mustHave = capacity() + n`,
`wantToHave = capacity() <= max_size()/2 ? 2*capacity() : max_size()`, and the
result `max(max(mustHave, wantToHave), minAlloc())`. -/
def calcNewCapacityForGrowthBy (D : IndexDesc) (a : Arr α) (n : Nat) :
    Except Err Nat :=
  errCheck (isGrowthOK D a n) .sizeLimitExceeded
    (.ok (max (max (a.capacity + n)
                   (if a.capacity ≤ D.maxSize / 2 then 2 * a.capacity else D.maxSize))
              (minAlloc D)))

/-- Source: `growAtEnd(n, methodName)`: pick the new capacity, allocate it (`allocN`
returns a null pointer exactly for a zero-sized request), move every element
across with `copyConstructThenDestructSource`, free the old buffer. -/
def growAtEnd (D : IndexDesc) (a : Arr α) (n : Nat) : Except Err (Arr α) := do
  let c ← calcNewCapacityForGrowthBy D a n
  .ok { dataNull := c == 0, elems := a.elems, nAllocated := c }

/-- Source: `push_back(const T& value)`: grow by one if full, then copy-construct the
value into the next slot and bump `nUsed`. -/
def push_back (D : IndexDesc) (a : Arr α) (v : α) : Except Err (Arr α) := do
  let a1 ← if a.nAllocated == a.size then growAtEnd D a 1 else pure a
  .ok { a1 with elems := a1.elems ++ [v] }

/-- Source: `push_back()` (non-standard): grow by one if full, then default-construct
into the next slot and bump `nUsed`. -/
def push_back_default [Inhabited α] (D : IndexDesc) (a : Arr α) :
    Except Err (Arr α) := do
  let a1 ← if a.nAllocated == a.size then growAtEnd D a 1 else pure a
  .ok { a1 with elems := a1.elems ++ [default] }

/-- Source: `raw_push_back()`: grow by one if full and bump `nUsed` without
constructing anything; the exposed slot holds garbage until the caller
constructs into it, modelled by `default`. -/
def raw_push_back [Inhabited α] (D : IndexDesc) (a : Arr α) :
    Except Err (Arr α) := do
  let a1 ← if a.nAllocated == a.size then growAtEnd D a 1 else pure a
  .ok { a1 with elems := a1.elems ++ [default] }

/-- A sequence of `push_back(value)` calls, one per listed value. -/
def pushMany (D : IndexDesc) (a : Arr α) (xs : List α) : Except Err (Arr α) :=
  xs.foldlM (push_back D) a

/-- Source: `pop_back()`: the emptiness check (an `SimTK_ERRCHK` reporting
"Array was empty", §7's EmptyContainerAccess), then destruct the last element
and decrement `nUsed`. -/
def pop_back (a : Arr α) : Except Err (Arr α) :=
  errCheck (decide (a.size ≠ 0)) .emptyContainerAccess
    (.ok { a with elems := a.elems.dropLast })

/-- Source: `clear()`: destruct all elements and zero `nUsed`; capacity and the buffer
are untouched. -/
def clear (a : Arr α) : Arr α := { a with elems := [] }

/-- Source: `reserve(newCapacity)`: if `nAllocated >= newCapacity` return immediately;
otherwise allocate exactly `newCapacity` slots (`allocN` yields null only for a
zero request), move the elements over in index order via
`copyConstructThenDestructSource`, free the old buffer, and adopt the new
buffer and capacity.  There is no check against `max_size` here. -/
def reserve (a : Arr α) (newCapacity : Nat) : Arr α :=
  if a.nAllocated ≥ newCapacity then a
  else { dataNull := newCapacity == 0, elems := a.elems, nAllocated := newCapacity }

/-- Source: `resize(sz)`: no-op at the current size; `clear()` for zero; truncating
erase of `[sz, end)` when shrinking; otherwise `reserve(sz)` followed by
default construction of the new slots. -/
def resize [Inhabited α] (a : Arr α) (sz : Nat) : Arr α :=
  if sz = a.size then a
  else if sz = 0 then clear a
  else if sz < a.size then { a with elems := a.elems.take sz }
  else { reserve a sz with
         elems := a.elems ++ List.replicate (sz - a.size) default }

/-- Source: `resize(sz, initVal)`: like `resize(sz)` but fill-constructing the new
slots from `initVal`. -/
def resizeFill (a : Arr α) (sz : Nat) (v : α) : Arr α :=
  if sz = a.size then a
  else if sz = 0 then clear a
  else if sz < a.size then { a with elems := a.elems.take sz }
  else { reserve a sz with
         elems := a.elems ++ List.replicate (sz - a.size) v }

/-- Source: `erase(first, last1)` with `first = data + f` and `last1 = data + l`:
validity check on the range, then destruct `[f, l)` and move the following
elements down with `moveElementsDown`; capacity is unchanged. -/
def eraseRange (a : Arr α) (f l : Nat) : Except Err (Arr α) :=
  errCheck (decide (f ≤ l ∧ l ≤ a.size)) .invalidRange
    (.ok { a with elems := a.elems.take f ++ a.elems.drop l })

/-- Source: `erase(p)` with `p = data + p`: validity check (`p` cannot be `end()`),
then destruct the element and move the followers down one slot. -/
def eraseOne (a : Arr α) (p : Nat) : Except Err (Arr α) :=
  errCheck (decide (p < a.size)) .invalidRange
    (.ok { a with elems := a.elems.take p ++ a.elems.drop (p + 1) })

/-- Source: `eraseFast(p)`: guarded only by a plain debug `assert`, so an invalid `p`
is undefined behavior in the source; the model leaves the state unchanged in
that case and no claim exercises it.  For valid `p`: destruct the element at
`p`, and unless it was the last one, `moveOneElement(p, &back())` copies the
last element into the vacated slot and destructs its old slot; `nUsed` drops
by one and capacity is unchanged. -/
def eraseFast [Inhabited α] (a : Arr α) (p : Nat) : Arr α :=
  if p < a.size then
    { a with elems := (a.elems.set p (a.elems.getLastD default)).dropLast }
  else a

/-- A source range handed to the raw-pointer `assign`/`insert` overloads:
either pointers into storage disjoint from the destination (`external`, with
the values it holds) or the pointer pair `(data + i, data + j)` into the
destination's own buffer (`internal`). -/
inductive SrcRange (α : Type) where
  | external (xs : List α)
  | internal (i j : Nat)
  deriving DecidableEq

/-- Source: `last1 - first`, the element count of a source range.  For an internal
range the source only uses it after checking `first <= last1`, so truncated
subtraction is exact there. -/
def srcLen (r : SrcRange α) : Nat :=
  match r with
  | .external xs => xs.length
  | .internal i j => j - i

/-- Source: `first <= last1`, the iterator-order check. -/
def srcOrdered (r : SrcRange α) : Bool :=
  match r with
  | .external _ => true
  | .internal i j => decide (i ≤ j)

/-- Source: `last1 <= begin() || end() <= first`, the aliasing test: true when the
source range lies entirely outside the live element range `[begin(), end())`.
Note that the comparison is against `end() = data + nUsed`, not against the end
of the allocation. -/
def srcOutside (a : Arr α) (r : SrcRange α) : Bool :=
  match r with
  | .external _ => true
  | .internal i j => decide (j = 0) || decide (a.size ≤ i)

/-- The values a bulk copy reads from a source range.  For an internal range,
a slot at index `nUsed` or beyond holds allocated but unconstructed memory, so
reading it is undefined behavior in the source; the model returns `default`
there, and no claim inspects values obtained that way. -/
def srcVals [Inhabited α] (a : Arr α) (r : SrcRange α) : List α :=
  match r with
  | .external xs => xs
  | .internal i j => (List.range (j - i)).map (fun k => a.elems.getD (i + k) default)

/-- Source: `reallocateIfAdvisable(n)`: reallocate (free, then `allocN(n)`) exactly
when `nAllocated < n || nAllocated/2 > max(minAlloc(), n)`; `nUsed` is not
touched and no element is constructed or destructed. -/
def reallocateIfAdvisable (D : IndexDesc) (a : Arr α) (n : Nat) : Arr α :=
  if a.nAllocated < n ∨ a.nAllocated / 2 > max (minAlloc D) n then
    { a with dataNull := n == 0, nAllocated := n }
  else a

/-- Source: `assignImpl(first, last1, std::random_access_iterator_tag())` for a source
of known values `xs` (the order check `first <= last1` is handled by the
call sites that can receive a disordered range): the `isSizeOK` check, then
`clear()`, `nUsed = last1 - first`, `reallocateIfAdvisable(nUsed)`, and a bulk
`copyConstruct` from the source. -/
def assignImplRA (D : IndexDesc) (a : Arr α) (xs : List α) : Except Err (Arr α) :=
  errCheck (isSizeOK D xs.length) .sizeLimitExceeded
    (.ok { reallocateIfAdvisable D (clear a) xs.length with elems := xs })

/-- Source: `assign(const T2* first, const T2* last1)`: the aliasing check against the
live range, then the random-access `assignImpl`, whose order check
`first <= last1` comes before its size check. -/
def assignPtr [Inhabited α] (D : IndexDesc) (a : Arr α) (r : SrcRange α) :
    Except Err (Arr α) :=
  errCheck (srcOutside a r) .invalidRange
    (errCheck (srcOrdered r) .invalidRange
      (assignImplRA D a (srcVals a r)))

/-- Source: `assign(n, fillValue)`: the always-on `isSizeOK` check, then `clear()`,
`reallocateIfAdvisable(n)` and `n` fill-constructions. -/
def assignFill (D : IndexDesc) (a : Arr α) (n : Nat) (v : α) : Except Err (Arr α) :=
  errCheck (isSizeOK D n) .sizeLimitExceeded
    (.ok { reallocateIfAdvisable D (clear a) n with elems := List.replicate n v })

/-- Source: `operator=(const Array_& src)`: `if (this != &src) assignImpl(src.begin(),
src.end(), random_access)`.  `sameObj` models the pointer identity test
`this == &src`; callers pass `true` exactly when `src` is this very object.
Note that `assignImpl` is entered directly, without the aliasing check of the
pointer-range `assign`. -/
def copyAssign (D : IndexDesc) (a : Arr α) (src : Arr α) (sameObj : Bool) :
    Except Err (Arr α) :=
  if sameObj then .ok a else assignImplRA D a src.elems

/-- The converting `operator=(const Array_<T2,X2>& src)`: no self-assignment
test; `assignImpl` is invoked unconditionally on the source's element range
`srcElems`. -/
def convAssign (D : IndexDesc) (a : Arr α) (srcElems : List α) :
    Except Err (Arr α) :=
  assignImplRA D a srcElems

/-- Source: `insert(p, n, value)` at position `p = p - begin()`: `insertGapAt` checks
the insertion point, returns immediately for `n = 0`, reuses spare capacity
when `capacity() >= size() + n` (shifting `[p, end)` up with
`moveElementsUp`), and otherwise grows via `calcNewCapacityForGrowthBy` while
leaving the gap; then `fillConstruct` fills the gap and `nUsed += n`. -/
def insertFill (D : IndexDesc) (a : Arr α) (p n : Nat) (v : α) :
    Except Err (Arr α) :=
  errCheck (decide (p ≤ a.size)) .invalidRange
    (if n = 0 then .ok a
     else if a.size + n ≤ a.nAllocated then
       .ok { a with elems := a.elems.take p ++ (List.replicate n v ++ a.elems.drop p) }
     else do
       let c ← calcNewCapacityForGrowthBy D a n
       .ok { dataNull := c == 0
             elems := a.elems.take p ++ (List.replicate n v ++ a.elems.drop p)
             nAllocated := c })

/-- Source: `insert(p, value)`: `insertGapAt(p, 1, ...)` followed by one
`copyConstruct` into the gap and `++nUsed`. -/
def insertOne (D : IndexDesc) (a : Arr α) (p : Nat) (v : α) :
    Except Err (Arr α) :=
  errCheck (decide (p ≤ a.size)) .invalidRange
    (if a.size + 1 ≤ a.nAllocated then
       .ok { a with elems := a.elems.take p ++ (v :: a.elems.drop p) }
     else do
       let c ← calcNewCapacityForGrowthBy D a 1
       .ok { dataNull := c == 0
             elems := a.elems.take p ++ (v :: a.elems.drop p)
             nAllocated := c })

/-- Source: `insert(p, first, last1)`: the aliasing check against the live range, then
the random-access `insertImpl`, which checks `first <= last1` and
`isGrowthOK(last1 - first)`, opens the gap with `insertGapAt` (which validates
`p` and handles `n = 0`), and bulk copy-constructs the source into the gap. -/
def insertPtr [Inhabited α] (D : IndexDesc) (a : Arr α) (p : Nat)
    (r : SrcRange α) : Except Err (Arr α) :=
  errCheck (srcOutside a r) .invalidRange
    (errCheck (srcOrdered r) .invalidRange
      (errCheck (isGrowthOK D a (srcLen r)) .sizeLimitExceeded
        (errCheck (decide (p ≤ a.size)) .invalidRange
          (if srcLen r = 0 then .ok a
           else if a.size + srcLen r ≤ a.nAllocated then
             .ok { a with
                   elems := a.elems.take p ++ (srcVals a r ++ a.elems.drop p) }
           else do
             let c ← calcNewCapacityForGrowthBy D a (srcLen r)
             .ok { dataNull := c == 0
                   elems := a.elems.take p ++ (srcVals a r ++ a.elems.drop p)
                   nAllocated := c }))))

/-- Source: `swap(other)`: exchange the three data members; this array receives
`other`'s buffer, length and capacity. -/
def swapGets (other : Arr α) : Arr α :=
  { dataNull := other.dataNull, elems := other.elems, nAllocated := other.nAllocated }

/-- Source: `Array_(size_type n)`: the `SimTK_SIZECHECK(n, max_size(), ...)` limit
check, then allocation of exactly `n` slots and `n` default constructions. -/
def ctorN [Inhabited α] (D : IndexDesc) (n : Nat) : Except Err (Arr α) :=
  errCheck (isSizeOK D n) .sizeLimitExceeded
    (.ok { dataNull := n == 0, elems := List.replicate n default, nAllocated := n })

/-- Source: `Array_(size_type n, const T& initVal)`: the size check, then allocation of
exactly `n` slots and `n` fill constructions. -/
def ctorFill (D : IndexDesc) (n : Nat) (v : α) : Except Err (Arr α) :=
  errCheck (isSizeOK D n) .sizeLimitExceeded
    (.ok { dataNull := n == 0, elems := List.replicate n v, nAllocated := n })

/-- Source: `Array_(const T2* first, const T2* last1)` from an external range: the
size check, then allocation of exactly `last1 - first` slots and a bulk
copy-construction. -/
def ctorRange (D : IndexDesc) (xs : List α) : Except Err (Arr α) :=
  errCheck (isSizeOK D xs.length) .sizeLimitExceeded
    (.ok { dataNull := xs.length == 0, elems := xs, nAllocated := xs.length })

/-- Source: `Array_(const Array_& src)`: allocate exactly `src.nUsed` slots (not
`src`'s capacity) and copy-construct the elements. -/
def ctorCopy (src : Arr α) : Arr α :=
  { dataNull := src.size == 0, elems := src.elems, nAllocated := src.size }

/-- One public mutating operation of the container, with its arguments.
Positions and ranges are given as offsets from `begin()`. -/
inductive Op (α : Type) where
  | opAssignFill (n : Nat) (v : α)
  | opAssignRange (r : SrcRange α)
  | opSelfAssign
  | opCopyAssign (src : Arr α)
  | opConvAssign (srcElems : List α)
  | opSwap (other : Arr α)
  | opResize (n : Nat)
  | opResizeFill (n : Nat) (v : α)
  | opReserve (n : Nat)
  | opClear
  | opEraseRange (f l : Nat)
  | opEraseOne (p : Nat)
  | opEraseFast (p : Nat)
  | opInsertFill (p n : Nat) (v : α)
  | opInsertOne (p : Nat) (v : α)
  | opInsertRange (p : Nat) (r : SrcRange α)
  | opPushBack (v : α)
  | opPushBackDefault
  | opRawPushBack
  | opPopBack

/-- Dispatch one public mutating operation on the container state. -/
def applyOp [Inhabited α] (D : IndexDesc) (a : Arr α) : Op α → Except Err (Arr α)
  | .opAssignFill n v => assignFill D a n v
  | .opAssignRange r => assignPtr D a r
  | .opSelfAssign => copyAssign D a a true
  | .opCopyAssign src => copyAssign D a src false
  | .opConvAssign xs => convAssign D a xs
  | .opSwap other => .ok (swapGets other)
  | .opResize n => .ok (resize a n)
  | .opResizeFill n v => .ok (resizeFill a n v)
  | .opReserve n => .ok (reserve a n)
  | .opClear => .ok (clear a)
  | .opEraseRange f l => eraseRange a f l
  | .opEraseOne p => eraseOne a p
  | .opEraseFast p => .ok (eraseFast a p)
  | .opInsertFill p n v => insertFill D a p n v
  | .opInsertOne p v => insertOne D a p v
  | .opInsertRange p r => insertPtr D a p r
  | .opPushBack v => push_back D a v
  | .opPushBackDefault => push_back_default D a
  | .opRawPushBack => raw_push_back D a
  | .opPopBack => pop_back a

/-- Container invariants (a) and (b) of the data model: `nUsed ≤ nAllocated`,
and a zero capacity means the `data` pointer is in its null sentinel state. -/
def invAB (a : Arr α) : Prop :=
  a.size ≤ a.capacity ∧ (a.capacity = 0 → a.dataNull = true)

/-- Container invariant (d): the capacity never exceeds the index type's
maximum representable count. -/
def invD (D : IndexDesc) (a : Arr α) : Prop := a.capacity ≤ D.maxSize

/-- Side conditions under which an operation value denotes a call that can
actually be issued in the source language: numeric arguments are values of
`size_type` (hence bounded by `sizeTypeMax`), and an array passed to `swap`
is itself a well-formed container. -/
def opWF (D : IndexDesc) : Op α → Prop
  | .opSwap other => invAB other ∧ invD D other
  | .opResize n => n ≤ D.sizeTypeMax
  | .opResizeFill n _ => n ≤ D.sizeTypeMax
  | .opReserve n => n ≤ D.sizeTypeMax
  | _ => True

/-! ## Helper lemmas -/

theorem errCheck_ok_iff {γ : Type} {ok : Bool} {e : Err} {k : Except Err γ}
    {x : γ} : errCheck ok e k = .ok x ↔ (ok = true ∧ k = .ok x) := by
  unfold errCheck; cases ok <;> simp

theorem calc_ok_iff (D : IndexDesc) (a : Arr α) (n c : Nat) :
    calcNewCapacityForGrowthBy D a n = .ok c ↔
      (a.capacity + n ≤ D.maxSize ∧
       c = max (max (a.capacity + n)
                    (if a.capacity ≤ D.maxSize / 2 then 2 * a.capacity else D.maxSize))
               (minAlloc D)) := by
  unfold calcNewCapacityForGrowthBy errCheck isGrowthOK isSizeOK
  by_cases h : a.capacity + n ≤ D.maxSize <;> simp [h, eq_comm]

theorem calc_err_iff (D : IndexDesc) (a : Arr α) (n : Nat) :
    calcNewCapacityForGrowthBy D a n = .error .sizeLimitExceeded ↔
      D.maxSize < a.capacity + n := by
  unfold calcNewCapacityForGrowthBy errCheck isGrowthOK isSizeOK
  by_cases h : a.capacity + n ≤ D.maxSize
  · simp [h]
    try omega
  · simp [h]
    try omega

theorem calc_ok_bounds (D : IndexDesc) (a : Arr α) {n c : Nat}
    (h : calcNewCapacityForGrowthBy D a n = .ok c) :
    a.capacity + n ≤ D.maxSize ∧ a.capacity + n ≤ c ∧ minAlloc D ≤ c ∧
      c ≤ D.maxSize := by
  rw [calc_ok_iff] at h
  obtain ⟨h1, h2⟩ := h
  subst h2
  unfold minAlloc
  refine ⟨h1, ?_, ?_, ?_⟩ <;> split <;> omega

/-! ## C3: growth policy -/

/-- C3: when growing to insert or append `n` elements, the capacity chosen by
`calcNewCapacityForGrowthBy` equals
`max(currentCapacity + n, min(2·currentCapacity, max_size), min(4, max_size))`;
the overflow check (`currentCapacity + n ≤ max_size`, computed in widened
unsigned arithmetic, exact over `Nat`) is performed unconditionally and fails
with SizeLimitExceeded exactly when exceeded, and the chosen capacity never
exceeds `max_size`. -/
theorem c3_growth_policy (D : IndexDesc) (a : Arr α) (n : Nat) :
    (calcNewCapacityForGrowthBy D a n = .error .sizeLimitExceeded ↔
      D.maxSize < a.capacity + n) ∧
    (a.capacity + n ≤ D.maxSize →
      calcNewCapacityForGrowthBy D a n =
        .ok (max (a.capacity + n)
                 (max (min (2 * a.capacity) D.maxSize) (min 4 D.maxSize))) ∧
      max (a.capacity + n)
          (max (min (2 * a.capacity) D.maxSize) (min 4 D.maxSize)) ≤
        D.maxSize) := by
  refine ⟨calc_err_iff D a n, fun h => ⟨?_, ?_⟩⟩
  · rw [calc_ok_iff]
    refine ⟨h, ?_⟩
    unfold minAlloc
    split <;> omega
  · omega

/-- Witness for C3 at a concrete input: a capacity-3 array growing by one gets
capacity `max(4, min(6, max), min(4, max)) = 6`. -/
theorem c3_growth_policy_witness :
    (Arr.capacity { dataNull := false, elems := ([1, 2, 3] : List Nat), nAllocated := 3 } + 1 ≤
        intDesc.maxSize) ∧
    (calcNewCapacityForGrowthBy intDesc
        { dataNull := false, elems := ([1, 2, 3] : List Nat), nAllocated := 3 } 1 =
      .ok (max (Arr.capacity { dataNull := false, elems := ([1, 2, 3] : List Nat), nAllocated := 3 } + 1)
               (max (min (2 * Arr.capacity { dataNull := false, elems := ([1, 2, 3] : List Nat), nAllocated := 3 }) intDesc.maxSize)
                    (min 4 intDesc.maxSize))) ∧
      max (Arr.capacity { dataNull := false, elems := ([1, 2, 3] : List Nat), nAllocated := 3 } + 1)
          (max (min (2 * Arr.capacity { dataNull := false, elems := ([1, 2, 3] : List Nat), nAllocated := 3 }) intDesc.maxSize)
               (min 4 intDesc.maxSize)) ≤ intDesc.maxSize) :=
  ⟨by decide,
   (c3_growth_policy intDesc
      { dataNull := false, elems := ([1, 2, 3] : List Nat), nAllocated := 3 } 1).2
     (by decide)⟩

/-! ## C4: reserve semantics -/

/-- C4: `reserve(target)` with `target ≤ capacity` changes nothing (capacity
never decreases via `reserve`); with `target > capacity` it sets the capacity
to exactly `target` and preserves the length and the element values in
order. -/
theorem c4_reserve (a : Arr α) (t : Nat) :
    (t ≤ a.capacity → reserve a t = a) ∧
    (a.capacity < t →
      (reserve a t).capacity = t ∧ (reserve a t).elems = a.elems ∧
        (reserve a t).size = a.size) := by
  unfold reserve Arr.capacity Arr.size
  constructor
  · intro h
    rw [if_pos h]
  · intro h
    rw [if_neg (by omega)]
    exact ⟨rfl, rfl, rfl⟩

/-- Witness for C4: both branches at concrete inputs. -/
theorem c4_reserve_witness :
    ((1 : Nat) ≤ Arr.capacity { dataNull := false, elems := ([1, 2] : List Nat), nAllocated := 2 } ∧
      reserve { dataNull := false, elems := ([1, 2] : List Nat), nAllocated := 2 } 1 =
        { dataNull := false, elems := ([1, 2] : List Nat), nAllocated := 2 }) ∧
    (Arr.capacity { dataNull := false, elems := ([1, 2] : List Nat), nAllocated := 2 } < 7 ∧
      (reserve { dataNull := false, elems := ([1, 2] : List Nat), nAllocated := 2 } 7).capacity = 7) :=
  ⟨⟨by decide,
    (c4_reserve { dataNull := false, elems := ([1, 2] : List Nat), nAllocated := 2 } 1).1 (by decide)⟩,
   ⟨by decide,
    ((c4_reserve { dataNull := false, elems := ([1, 2] : List Nat), nAllocated := 2 } 7).2 (by decide)).1⟩⟩

/-! ## C8: reserve has no size-limit check -/

/-- C8 counterexample: for the `unsigned` index type, whose `size_type` can
represent values above `max_size`, `reserve(0x80000000)` on a default
container does not fail with SizeLimitExceeded — `reserve` is not a fallible
operation at all — and adopts a capacity strictly above `max_size`,
contradicting the claim. -/
theorem c8_reserve_limit_cex :
    (reserve (ctorDefault : Arr Nat) 2147483648).capacity = 2147483648 ∧
    unsignedDesc.maxSize < 2147483648 ∧
    2147483648 ≤ unsignedDesc.sizeTypeMax := by decide

/-- C8 amended: `reserve(target)` performs no check against the index type's
maximum representable count: whenever `target` exceeds the current capacity it
adopts exactly `target` as the new capacity, even when `target` is above
`max_size` (possible for index types whose `size_type` represents values above
`max_size`, such as `unsigned`); no SizeLimitExceeded condition is raised. -/
theorem c8_reserve_amended (a : Arr α) (t : Nat) (h : a.capacity < t) :
    (reserve a t).capacity = t := by
  unfold Arr.capacity at h
  unfold reserve Arr.capacity
  rw [if_neg (by omega)]

/-- Witness for C8 amended, at a target above `max_size` of `unsignedDesc`. -/
theorem c8_reserve_amended_witness :
    (ctorDefault : Arr Nat).capacity < 2147483648 ∧
    (reserve (ctorDefault : Arr Nat) 2147483648).capacity = 2147483648 :=
  ⟨by decide, c8_reserve_amended ctorDefault 2147483648 (by decide)⟩

/-! ## C1: sequences of appends -/

theorem push_back_ok_char (D : IndexDesc) (a : Arr α) (v : α)
    (ha : a.size ≤ a.capacity) (hd : a.capacity ≤ D.maxSize)
    (hs : a.size < D.maxSize) :
    ∃ a', push_back D a v = .ok a' ∧ a'.elems = a.elems ++ [v] ∧
      a'.size ≤ a'.capacity ∧ a'.capacity ≤ D.maxSize := by
  unfold push_back
  by_cases hfull : a.nAllocated = a.size
  · have hcap : a.capacity = a.size := hfull
    obtain ⟨c, hc⟩ : ∃ c, calcNewCapacityForGrowthBy D a 1 = .ok c :=
      ⟨_, (calc_ok_iff D a 1 _).2 ⟨by omega, rfl⟩⟩
    have hb := calc_ok_bounds D a hc
    refine ⟨{ dataNull := c == 0, elems := a.elems ++ [v], nAllocated := c },
      ?_, rfl, ?_, ?_⟩
    · simp only [hfull, beq_self_eq_true, if_true, growAtEnd, hc, Except.bind,
        bind, pure]
    · simp only [Arr.size, Arr.capacity, List.length_append, List.length_cons,
        List.length_nil] at *
      omega
    · exact hb.2.2.2
  · have hne : (a.nAllocated == a.size) = false := by
      simp [hfull]
    refine ⟨{ a with elems := a.elems ++ [v] }, ?_, rfl, ?_, ?_⟩
    · simp [hne, Except.bind, bind, pure, Except.pure]
    · simp only [Arr.size, Arr.capacity, List.length_append, List.length_cons,
        List.length_nil] at *
      omega
    · exact hd

theorem pushMany_ok_char (D : IndexDesc) (xs : List α) : ∀ (a : Arr α),
    a.size ≤ a.capacity → a.capacity ≤ D.maxSize →
    a.size + xs.length ≤ D.maxSize →
    ∃ a', pushMany D a xs = .ok a' ∧ a'.elems = a.elems ++ xs ∧
      a'.size ≤ a'.capacity ∧ a'.capacity ≤ D.maxSize := by
  induction xs with
  | nil =>
    intro a h1 h2 _
    exact ⟨a, rfl, by simp, h1, h2⟩
  | cons v t ih =>
    intro a h1 h2 h3
    have hlen : a.size + (t.length + 1) ≤ D.maxSize := by
      simpa [Nat.add_comm] using h3
    obtain ⟨a1, hpb, he, hi1, hi2⟩ :=
      push_back_ok_char D a v h1 h2 (by omega)
    have hsz : a1.size = a.size + 1 := by
      simp [Arr.size, he]
    obtain ⟨a2, hpm, he2, hj1, hj2⟩ := ih a1 hi1 hi2 (by omega)
    refine ⟨a2, ?_, ?_, hj1, hj2⟩
    · simp only [pushMany, List.foldlM_cons, hpb, Except.bind, bind]
      exact hpm
    · rw [he2, he]
      simp

/-- C1: for every sequence of `k` `push_back(value)` calls on a
default-constructed container (any sequence the index type can hold at all),
every call succeeds, and afterwards the length is `k`, the capacity is at
least the length, and the elements are exactly the appended values in
order. -/
theorem c1_appends (D : IndexDesc) (xs : List α) (h : xs.length ≤ D.maxSize) :
    ∃ a, pushMany D ctorDefault xs = .ok a ∧ a.size = xs.length ∧
      a.size ≤ a.capacity ∧ a.elems = xs := by
  obtain ⟨a, h1, h2, h3, h4⟩ :=
    pushMany_ok_char D xs ctorDefault (by simp [ctorDefault, Arr.size, Arr.capacity])
      (by simp [ctorDefault, Arr.capacity]) (by simpa [ctorDefault, Arr.size])
  have he : a.elems = xs := by simpa [ctorDefault] using h2
  exact ⟨a, h1, by simp [Arr.size, he], h3, he⟩

/-- Witness for C1: the spec's concrete scenario, appending 10,20,30,40,50. -/
theorem c1_appends_witness :
    ([10, 20, 30, 40, 50] : List Nat).length ≤ intDesc.maxSize ∧
    (∃ a, pushMany intDesc ctorDefault [10, 20, 30, 40, 50] = .ok a ∧
      a.size = ([10, 20, 30, 40, 50] : List Nat).length ∧
      a.size ≤ a.capacity ∧ a.elems = [10, 20, 30, 40, 50]) :=
  ⟨by decide, c1_appends intDesc [10, 20, 30, 40, 50] (by decide)⟩

/-! ## C9: removeLast -/

/-- C9: `pop_back` on a container with zero elements fails with
EmptyContainerAccess; on a non-empty container it destructs the last element
and decrements the length by one, leaving the other elements and the capacity
unchanged. -/
theorem c9_pop_back [Inhabited α] (a : Arr α) :
    (a.size = 0 → pop_back a = .error .emptyContainerAccess) ∧
    (0 < a.size →
      ∃ a', pop_back a = .ok a' ∧ a'.size = a.size - 1 ∧
        a'.capacity = a.capacity ∧ a'.dataNull = a.dataNull ∧
        ∀ k, k < a.size - 1 →
          a'.elems.getD k default = a.elems.getD k default) := by
  constructor
  · intro h
    unfold pop_back errCheck
    simp [h]
  · intro h
    refine ⟨{ a with elems := a.elems.dropLast }, ?_, ?_, rfl, rfl, ?_⟩
    · unfold pop_back errCheck
      rw [if_pos (by simpa using Nat.pos_iff_ne_zero.mp h)]
    · simp [Arr.size, List.length_dropLast]
    · intro k hk
      rw [List.getD_eq_getElem?_getD, List.getD_eq_getElem?_getD,
        List.getElem?_dropLast, if_pos (show k < a.elems.length - 1 from hk)]

/-- Witness for C9: both branches at concrete inputs. -/
theorem c9_pop_back_witness :
    (Arr.size { dataNull := false, elems := ([] : List Nat), nAllocated := 3 } = 0 →
      pop_back { dataNull := false, elems := ([] : List Nat), nAllocated := 3 } =
        .error .emptyContainerAccess) ∧
    (0 < Arr.size { dataNull := false, elems := ([8, 9] : List Nat), nAllocated := 4 } ∧
      ∃ a', pop_back { dataNull := false, elems := ([8, 9] : List Nat), nAllocated := 4 } = .ok a' ∧
        a'.size = Arr.size { dataNull := false, elems := ([8, 9] : List Nat), nAllocated := 4 } - 1 ∧
        a'.capacity = Arr.capacity { dataNull := false, elems := ([8, 9] : List Nat), nAllocated := 4 } ∧
        a'.dataNull = false ∧
        ∀ k, k < Arr.size { dataNull := false, elems := ([8, 9] : List Nat), nAllocated := 4 } - 1 →
          a'.elems.getD k default =
            ({ dataNull := false, elems := ([8, 9] : List Nat), nAllocated := 4 } : Arr Nat).elems.getD k default) :=
  ⟨(c9_pop_back { dataNull := false, elems := ([] : List Nat), nAllocated := 3 }).1,
   by decide,
   (c9_pop_back { dataNull := false, elems := ([8, 9] : List Nat), nAllocated := 4 }).2 (by decide)⟩

/-! ## C6: eraseFast versus erase -/

/-- C6: for a valid position `p`, `eraseFast(p)` destructs the element at `p`
and, unless `p` was the last position, moves the previous last element into
`p`'s slot (reordering the container); the length drops by one and the
capacity is unchanged.  Concretely, on `[1,2,3,4,5]` `eraseFast` at position 2
yields `[1,2,5,4]` while ordinary `erase` at position 2 yields `[1,2,4,5]`
with order preserved and capacity unchanged in both cases. -/
theorem c6_erase_fast :
    (∀ (β : Type) [Inhabited β] (a : Arr β) (p : Nat), p < a.size →
      (eraseFast a p).size = a.size - 1 ∧
      (eraseFast a p).capacity = a.capacity ∧
      (∀ k, k < a.size - 1 → k ≠ p →
        (eraseFast a p).elems.getD k default = a.elems.getD k default) ∧
      (p < a.size - 1 →
        (eraseFast a p).elems.getD p default =
          a.elems.getD (a.size - 1) default)) ∧
    eraseFast { dataNull := false, elems := ([1, 2, 3, 4, 5] : List Nat), nAllocated := 5 } 2 =
      { dataNull := false, elems := [1, 2, 5, 4], nAllocated := 5 } ∧
    eraseOne { dataNull := false, elems := ([1, 2, 3, 4, 5] : List Nat), nAllocated := 5 } 2 =
      .ok { dataNull := false, elems := [1, 2, 4, 5], nAllocated := 5 } := by
  refine ⟨?_, rfl, rfl⟩
  intro β _ a p hp
  unfold eraseFast
  rw [if_pos hp]
  refine ⟨?_, rfl, ?_, ?_⟩
  · simp [Arr.size, List.length_dropLast, List.length_set]
  · intro k hk hkp
    rw [List.getD_eq_getElem?_getD, List.getD_eq_getElem?_getD,
      List.getElem?_dropLast, if_pos (by simpa [Arr.size] using hk),
      List.getElem?_set, if_neg (fun hh => hkp hh.symm)]
  · intro hlast
    rw [List.getD_eq_getElem?_getD, List.getD_eq_getElem?_getD,
      List.getElem?_dropLast, if_pos (by simpa [Arr.size] using hlast),
      List.getElem?_set, if_pos rfl,
      if_pos (show p < a.elems.length from hp)]
    rw [List.getLastD_eq_getLast?, List.getLast?_eq_getElem?]
    rfl

/-- Witness for C6, exercising the general part at position 1 of a
three-element container. -/
theorem c6_erase_fast_witness :
    (1 : Nat) < Arr.size { dataNull := false, elems := ([6, 7, 8] : List Nat), nAllocated := 3 } ∧
    ((eraseFast { dataNull := false, elems := ([6, 7, 8] : List Nat), nAllocated := 3 } 1).size =
        Arr.size { dataNull := false, elems := ([6, 7, 8] : List Nat), nAllocated := 3 } - 1 ∧
      (eraseFast { dataNull := false, elems := ([6, 7, 8] : List Nat), nAllocated := 3 } 1).capacity =
        Arr.capacity { dataNull := false, elems := ([6, 7, 8] : List Nat), nAllocated := 3 } ∧
      (∀ k, k < Arr.size { dataNull := false, elems := ([6, 7, 8] : List Nat), nAllocated := 3 } - 1 →
        k ≠ 1 →
        (eraseFast { dataNull := false, elems := ([6, 7, 8] : List Nat), nAllocated := 3 } 1).elems.getD k default =
          ({ dataNull := false, elems := ([6, 7, 8] : List Nat), nAllocated := 3 } : Arr Nat).elems.getD k default) ∧
      ((1 : Nat) < Arr.size { dataNull := false, elems := ([6, 7, 8] : List Nat), nAllocated := 3 } - 1 →
        (eraseFast { dataNull := false, elems := ([6, 7, 8] : List Nat), nAllocated := 3 } 1).elems.getD 1 default =
          ({ dataNull := false, elems := ([6, 7, 8] : List Nat), nAllocated := 3 } : Arr Nat).elems.getD
            (Arr.size { dataNull := false, elems := ([6, 7, 8] : List Nat), nAllocated := 3 } - 1) default)) :=
  ⟨by decide,
   c6_erase_fast.1 Nat { dataNull := false, elems := [6, 7, 8], nAllocated := 3 } 1 (by decide)⟩

/-! ## C5: known-size assignment -/

theorem assignImplRA_ok_char (D : IndexDesc) (a : Arr α) (xs : List α)
    (h : xs.length ≤ D.maxSize) :
    assignImplRA D a xs =
      .ok { reallocateIfAdvisable D (clear a) xs.length with elems := xs } := by
  unfold assignImplRA errCheck isSizeOK
  rw [if_pos (by simpa using h)]

theorem realloc_cap_claim (D : IndexDesc) (a : Arr α) (n : Nat) :
    (reallocateIfAdvisable D a n).nAllocated =
      (if n ≤ a.nAllocated ∧ a.nAllocated ≤ 2 * max (minAlloc D) n + 1
       then a.nAllocated else n) := by
  unfold reallocateIfAdvisable
  by_cases hcond : a.nAllocated < n ∨ a.nAllocated / 2 > max (minAlloc D) n
  · rw [if_pos hcond,
      if_neg (by rcases hcond with h | h <;> omega :
        ¬(n ≤ a.nAllocated ∧ a.nAllocated ≤ 2 * max (minAlloc D) n + 1))]
  · rw [if_neg hcond]
    have hpos : n ≤ a.nAllocated ∧ a.nAllocated ≤ 2 * max (minAlloc D) n + 1 := by
      push_neg at hcond
      omega
    rw [if_pos hpos]

theorem assignPtr_external [Inhabited α] (D : IndexDesc) (a : Arr α)
    (xs : List α) : assignPtr D a (.external xs) = assignImplRA D a xs := rfl

/-- C5 counterexample: assigning the one-element source `[42]` to a container
of capacity 8 keeps the capacity at 8 even though 8 is more than twice the
one-element need, where the claim requires reallocation to exactly fit. -/
theorem c5_assign_cex :
    assignPtr intDesc { dataNull := false, elems := ([1, 2, 3] : List Nat), nAllocated := 8 }
        (.external [42]) =
      .ok { dataNull := false, elems := [42], nAllocated := 8 } ∧
    2 * ([42] : List Nat).length <
      Arr.capacity { dataNull := false, elems := ([1, 2, 3] : List Nat), nAllocated := 8 } :=
  ⟨rfl, by decide⟩

/-- C5 amended: known-size assignment from a disjoint range of `m` elements
(`m` within the index ceiling) destroys all current elements and
copy-constructs `m` fresh ones equal to the source in order; afterwards the
length is `m`, and the existing allocation is reused exactly when it already
fits (`m ≤ capacity`) and `capacity ≤ 2·max(min(4, max_size), m) + 1`
(equivalently `capacity/2 ≤ max(minAlloc, m)`); otherwise the buffer is
reallocated to hold exactly `m` slots, so at most one allocation occurs. -/
theorem c5_assign_amended [Inhabited α] (D : IndexDesc) (a : Arr α)
    (xs : List α) (h : xs.length ≤ D.maxSize) :
    ∃ a', assignPtr D a (.external xs) = .ok a' ∧ a'.elems = xs ∧
      a'.size = xs.length ∧
      a'.capacity =
        (if xs.length ≤ a.capacity ∧
            a.capacity ≤ 2 * max (minAlloc D) xs.length + 1
         then a.capacity else xs.length) := by
  rw [assignPtr_external, assignImplRA_ok_char D a xs h]
  refine ⟨_, rfl, rfl, rfl, ?_⟩
  exact realloc_cap_claim D (clear a) xs.length

/-- Witness for C5 amended at a concrete input: assigning `[42]` to a
capacity-8 three-element container. -/
theorem c5_assign_amended_witness :
    ([42] : List Nat).length ≤ intDesc.maxSize ∧
    (∃ a', assignPtr intDesc { dataNull := false, elems := ([1, 2, 3] : List Nat), nAllocated := 8 }
          (.external [42]) = .ok a' ∧
      a'.elems = [42] ∧ a'.size = ([42] : List Nat).length ∧
      a'.capacity =
        (if ([42] : List Nat).length ≤
              Arr.capacity { dataNull := false, elems := ([1, 2, 3] : List Nat), nAllocated := 8 } ∧
            Arr.capacity { dataNull := false, elems := ([1, 2, 3] : List Nat), nAllocated := 8 } ≤
              2 * max (minAlloc intDesc) ([42] : List Nat).length + 1
         then Arr.capacity { dataNull := false, elems := ([1, 2, 3] : List Nat), nAllocated := 8 }
         else ([42] : List Nat).length)) :=
  ⟨by decide,
   c5_assign_amended intDesc { dataNull := false, elems := [1, 2, 3], nAllocated := 8 }
     [42] (by decide)⟩

/-! ## C7: the aliasing check -/

theorem assignImplRA_ne_invalidRange (D : IndexDesc) (a : Arr α)
    (xs : List α) : assignImplRA D a xs ≠ .error .invalidRange := by
  unfold assignImplRA errCheck
  split
  · simp
  · simp

theorem calc_err_kind (D : IndexDesc) (a : Arr α) {n : Nat} {e : Err}
    (h : calcNewCapacityForGrowthBy D a n = .error e) :
    e = .sizeLimitExceeded := by
  unfold calcNewCapacityForGrowthBy errCheck at h
  split at h
  · exact absurd h (by simp)
  · injection h with h
    exact h.symm

theorem insertPtr_ne_invalidRange [Inhabited α] (D : IndexDesc) (a : Arr α)
    (p : Nat) (r : SrcRange α) (hout : srcOutside a r = true)
    (hord : srcOrdered r = true) (hp : p ≤ a.size) :
    insertPtr D a p r ≠ .error .invalidRange := by
  unfold insertPtr errCheck
  rw [hout, if_pos rfl, hord, if_pos rfl]
  split
  · rw [if_pos (by simpa using hp)]
    split
    · simp
    · split
      · simp
      · cases hcalc : calcNewCapacityForGrowthBy D a (srcLen r) with
        | ok c =>
          simp [bind, Except.bind]
        | error e =>
          simp only [bind, Except.bind]
          have := calc_err_kind D a hcalc
          subst this
          simp
  · simp

/-- C7 counterexample: with one live element and capacity 4, the source range
`[data + 2, data + 3)` lies inside the container's own allocated storage, yet
`assign` does not reject it with InvalidRange (the check only compares against
the live range `[begin, end)`). -/
theorem c7_overlap_cex :
    assignPtr intDesc { dataNull := false, elems := ([5] : List Nat), nAllocated := 4 }
        (.internal 2 3) ≠ .error .invalidRange ∧
    (3 : Nat) ≤ Arr.capacity { dataNull := false, elems := ([5] : List Nat), nAllocated := 4 } ∧
    Arr.size { dataNull := false, elems := ([5] : List Nat), nAllocated := 4 } ≤ 2 := by
  refine ⟨?_, by decide, by decide⟩
  intro h
  exact Except.noConfusion
    ((show assignPtr intDesc { dataNull := false, elems := ([5] : List Nat), nAllocated := 4 }
        (.internal 2 3) = .ok { dataNull := false, elems := [0], nAllocated := 4 } from rfl).symm.trans h)

/-- C7 amended: for an ordered source pointer range `[data + i, data + j)`
into the destination's own buffer and a valid insertion position, bulk
`assign` and bulk `insert` reject the call with InvalidRange exactly when the
range is not wholly outside the live element range `[begin, end)`, i.e. when
`0 < j` and `i < length`; the rejection happens before any mutation.  A range
lying wholly within the unconstructed spare-capacity region
`[length, capacity)` is not rejected. -/
theorem c7_overlap_amended [Inhabited α] (D : IndexDesc) (a : Arr α)
    (i j p : Nat) (hij : i ≤ j) (hp : p ≤ a.size) :
    (assignPtr D a (.internal i j) = .error .invalidRange ↔
      (0 < j ∧ i < a.size)) ∧
    (insertPtr D a p (.internal i j) = .error .invalidRange ↔
      (0 < j ∧ i < a.size)) := by
  have hord : srcOrdered (.internal i j : SrcRange α) = true := by
    unfold srcOrdered
    simpa using hij
  by_cases hov : 0 < j ∧ i < a.size
  · obtain ⟨hov1, hov2⟩ := hov
    have hov : 0 < j ∧ i < a.size := ⟨hov1, hov2⟩
    have hout : srcOutside a (.internal i j : SrcRange α) = false := by
      show (decide (j = 0) || decide (a.size ≤ i)) = false
      rw [decide_eq_false (by omega : ¬(j = 0)),
        decide_eq_false (by omega : ¬(a.size ≤ i))]
      rfl
    constructor
    · rw [iff_true_intro hov, iff_true]
      unfold assignPtr errCheck
      rw [hout]
      simp
    · rw [iff_true_intro hov, iff_true]
      unfold insertPtr errCheck
      rw [hout]
      simp
  · have hd : j = 0 ∨ a.size ≤ i := by omega
    have hout : srcOutside a (.internal i j : SrcRange α) = true := by
      show (decide (j = 0) || decide (a.size ≤ i)) = true
      rcases hd with h | h
      · rw [decide_eq_true h]
        simp
      · rw [decide_eq_true h]
        simp
    constructor
    · rw [iff_false_intro hov, iff_false]
      intro hcontra
      apply assignImplRA_ne_invalidRange D a (srcVals a (.internal i j))
      unfold assignPtr errCheck at hcontra
      rw [hout, if_pos rfl, hord, if_pos rfl] at hcontra
      exact hcontra
    · rw [iff_false_intro hov, iff_false]
      exact insertPtr_ne_invalidRange D a p (.internal i j) hout hord hp

/-- Witness for C7 amended: both directions at concrete inputs — the range
`[data, data + 1)` overlapping the single live element is rejected, and a
range in the spare region is not. -/
theorem c7_overlap_amended_witness :
    ((0 : Nat) ≤ 1 ∧
      Arr.size { dataNull := false, elems := ([5] : List Nat), nAllocated := 4 } ≤
        Arr.size { dataNull := false, elems := ([5] : List Nat), nAllocated := 4 }) ∧
    (assignPtr intDesc { dataNull := false, elems := ([5] : List Nat), nAllocated := 4 }
        (.internal 0 1) = .error .invalidRange ↔
      (0 < 1 ∧ 0 < Arr.size { dataNull := false, elems := ([5] : List Nat), nAllocated := 4 })) :=
  ⟨⟨by decide, by decide⟩,
   (c7_overlap_amended intDesc { dataNull := false, elems := ([5] : List Nat), nAllocated := 4 }
      0 1 (Arr.size { dataNull := false, elems := ([5] : List Nat), nAllocated := 4 })
      (by decide) (by decide)).1⟩

/-! ## C10: self-assignment -/

/-- C10: copy-assigning a container to itself takes the `this == &src` branch
and is a no-op leaving the whole state (buffer nullness, elements, capacity)
unchanged; yet the converting assignment path has no such guard — assigning a
container's own elements through it is not a no-op (here the capacity shrinks
from 11 to 1) — even though the general aliasing rule of the pointer-range
`assign` rejects a source range inside the destination's live storage with
InvalidRange. -/
theorem c10_self_assign :
    (∀ (β : Type) (D : IndexDesc) (a : Arr β), copyAssign D a a true = .ok a) ∧
    convAssign intDesc { dataNull := false, elems := ([7] : List Nat), nAllocated := 11 } [7] =
      .ok { dataNull := false, elems := [7], nAllocated := 1 } ∧
    assignPtr intDesc { dataNull := false, elems := ([7] : List Nat), nAllocated := 11 }
      (.internal 0 1) = .error .invalidRange :=
  ⟨fun _ _ _ => rfl, rfl, rfl⟩

/-! ## C2: invariant preservation helpers -/

theorem realloc_cases (D : IndexDesc) (a : Arr α) (n : Nat) :
    (reallocateIfAdvisable D a n).elems = a.elems ∧
    (((reallocateIfAdvisable D a n).nAllocated = n ∧
        (reallocateIfAdvisable D a n).dataNull = (n == 0)) ∨
      ((reallocateIfAdvisable D a n).nAllocated = a.nAllocated ∧
        (reallocateIfAdvisable D a n).dataNull = a.dataNull ∧
        n ≤ a.nAllocated)) := by
  unfold reallocateIfAdvisable
  split
  · exact ⟨rfl, .inl ⟨rfl, rfl⟩⟩
  · next hneg =>
    push_neg at hneg
    exact ⟨rfl, .inr ⟨rfl, rfl, by omega⟩⟩

theorem assignImplRA_inv (D : IndexDesc) (a : Arr α) (xs : List α) {a' : Arr α}
    (hab : invAB a) (hd : invD D a) (h : assignImplRA D a xs = .ok a') :
    invAB a' ∧ invD D a' := by
  unfold assignImplRA errCheck at h
  split at h
  case isTrue hsz =>
    have hsz' : xs.length ≤ D.maxSize := by
      simpa [isSizeOK] using hsz
    injection h with h
    subst h
    have hclear : (clear a).nAllocated = a.nAllocated := rfl
    have hclearD : (clear a).dataNull = a.dataNull := rfl
    obtain ⟨_, hc⟩ := realloc_cases D (clear a) xs.length
    refine ⟨⟨?_, ?_⟩, ?_⟩
    · show xs.length ≤ (reallocateIfAdvisable D (clear a) xs.length).nAllocated
      rcases hc with ⟨h1, _⟩ | ⟨h1, _, h3⟩ <;> omega
    · intro h0
      show (reallocateIfAdvisable D (clear a) xs.length).dataNull = true
      have h0' : (reallocateIfAdvisable D (clear a) xs.length).nAllocated = 0 := h0
      rcases hc with ⟨h1, h2⟩ | ⟨h1, h2, _⟩
      · rw [h2]
        have hz : xs.length = 0 := by omega
        simp [hz]
      · rw [h2, hclearD]
        apply hab.2
        show a.nAllocated = 0
        omega
    · show (reallocateIfAdvisable D (clear a) xs.length).nAllocated ≤ D.maxSize
      have hd' : a.nAllocated ≤ D.maxSize := hd
      rcases hc with ⟨h1, _⟩ | ⟨h1, _, _⟩ <;> omega
  case isFalse => exact absurd h (by simp)

theorem assignFill_eq (D : IndexDesc) (a : Arr α) (n : Nat) (v : α) :
    assignFill D a n v = assignImplRA D a (List.replicate n v) := by
  unfold assignFill assignImplRA
  rw [List.length_replicate]

theorem push_back_inv (D : IndexDesc) (a : Arr α) (v : α) {a' : Arr α}
    (hab : invAB a) (hd : invD D a) (h : push_back D a v = .ok a') :
    invAB a' ∧ invD D a' := by
  have hab1 : a.elems.length ≤ a.nAllocated := hab.1
  have hab2 : a.nAllocated = 0 → a.dataNull = true := hab.2
  have hd' : a.nAllocated ≤ D.maxSize := hd
  unfold push_back at h
  by_cases hfull : a.nAllocated = a.size
  · rw [if_pos (by simpa using hfull)] at h
    unfold growAtEnd at h
    cases hcalc : calcNewCapacityForGrowthBy D a 1 with
    | error e =>
      rw [hcalc] at h
      simp [bind, Except.bind] at h
    | ok c =>
      rw [hcalc] at h
      simp only [bind, Except.bind] at h
      injection h with h
      subst h
      have hb := calc_ok_bounds D a hcalc
      have hb1 : a.nAllocated + 1 ≤ c := hb.2.1
      refine ⟨⟨?_, ?_⟩, ?_⟩
      · show (a.elems ++ [v]).length ≤ c
        rw [List.length_append]
        have hfull' : a.nAllocated = a.elems.length := hfull
        simp only [List.length_cons, List.length_nil]
        omega
      · intro h0
        have h0' : c = 0 := h0
        show (c == 0) = true
        simp [h0']
      · exact hb.2.2.2
  · rw [if_neg (by simpa using hfull)] at h
    simp only [bind, Except.bind, pure, Except.pure] at h
    injection h with h
    subst h
    have hfull' : ¬a.nAllocated = a.elems.length := hfull
    refine ⟨⟨?_, hab2⟩, hd'⟩
    show (a.elems ++ [v]).length ≤ a.nAllocated
    rw [List.length_append]
    simp only [List.length_cons, List.length_nil]
    omega

theorem resize_inv [Inhabited α] (a : Arr α) (sz : Nat) (hab : invAB a) :
    invAB (resize a sz) ∧ (resize a sz).nAllocated ≤ max a.nAllocated sz := by
  have hab1 : a.elems.length ≤ a.nAllocated := hab.1
  have hab2 : a.nAllocated = 0 → a.dataNull = true := hab.2
  have hsize : a.size = a.elems.length := rfl
  unfold resize
  split
  · exact ⟨hab, by omega⟩
  split
  · refine ⟨⟨Nat.zero_le _, hab2⟩, ?_⟩
    show a.nAllocated ≤ max a.nAllocated sz
    omega
  split
  · refine ⟨⟨?_, hab2⟩, ?_⟩
    · show (a.elems.take sz).length ≤ a.nAllocated
      rw [List.length_take]
      omega
    · show a.nAllocated ≤ max a.nAllocated sz
      omega
  · next hne h0 hlt =>
    have hgt : a.elems.length < sz := by omega
    unfold reserve
    split
    · next hge =>
      refine ⟨⟨?_, hab2⟩, ?_⟩
      · show (a.elems ++ List.replicate (sz - a.size) default).length ≤ a.nAllocated
        rw [List.length_append, List.length_replicate]
        omega
      · show a.nAllocated ≤ max a.nAllocated sz
        omega
    · refine ⟨⟨?_, ?_⟩, ?_⟩
      · show (a.elems ++ List.replicate (sz - a.size) default).length ≤ sz
        rw [List.length_append, List.length_replicate]
        omega
      · intro hc
        have hc' : sz = 0 := hc
        show (sz == 0) = true
        simp [hc']
      · show sz ≤ max a.nAllocated sz
        omega

theorem resizeFill_inv (a : Arr α) (sz : Nat) (v : α) (hab : invAB a) :
    invAB (resizeFill a sz v) ∧
      (resizeFill a sz v).nAllocated ≤ max a.nAllocated sz := by
  have hab1 : a.elems.length ≤ a.nAllocated := hab.1
  have hab2 : a.nAllocated = 0 → a.dataNull = true := hab.2
  have hsize : a.size = a.elems.length := rfl
  unfold resizeFill
  split
  · exact ⟨hab, by omega⟩
  split
  · refine ⟨⟨Nat.zero_le _, hab2⟩, ?_⟩
    show a.nAllocated ≤ max a.nAllocated sz
    omega
  split
  · refine ⟨⟨?_, hab2⟩, ?_⟩
    · show (a.elems.take sz).length ≤ a.nAllocated
      rw [List.length_take]
      omega
    · show a.nAllocated ≤ max a.nAllocated sz
      omega
  · next hne h0 hlt =>
    have hgt : a.elems.length < sz := by omega
    unfold reserve
    split
    · next hge =>
      refine ⟨⟨?_, hab2⟩, ?_⟩
      · show (a.elems ++ List.replicate (sz - a.size) v).length ≤ a.nAllocated
        rw [List.length_append, List.length_replicate]
        omega
      · show a.nAllocated ≤ max a.nAllocated sz
        omega
    · refine ⟨⟨?_, ?_⟩, ?_⟩
      · show (a.elems ++ List.replicate (sz - a.size) v).length ≤ sz
        rw [List.length_append, List.length_replicate]
        omega
      · intro hc
        have hc' : sz = 0 := hc
        show (sz == 0) = true
        simp [hc']
      · show sz ≤ max a.nAllocated sz
        omega

theorem srcVals_length [Inhabited α] (a : Arr α) (r : SrcRange α) :
    (srcVals a r).length = srcLen r := by
  cases r with
  | external xs => rfl
  | internal i j => simp [srcVals, srcLen]

theorem insertFill_inv (D : IndexDesc) (a : Arr α) (p n : Nat) (v : α)
    {a' : Arr α} (hab : invAB a) (hd : invD D a)
    (h : insertFill D a p n v = .ok a') : invAB a' ∧ invD D a' := by
  have hab1 : a.elems.length ≤ a.nAllocated := hab.1
  have hab2 : a.nAllocated = 0 → a.dataNull = true := hab.2
  have hd' : a.nAllocated ≤ D.maxSize := hd
  unfold insertFill errCheck at h
  split at h
  case isFalse => exact absurd h (by simp)
  case isTrue hpc =>
  have hp : p ≤ a.elems.length := of_decide_eq_true hpc
  split at h
  · injection h with h
    subst h
    exact ⟨hab, hd⟩
  split at h
  case isTrue hsp =>
    injection h with h
    subst h
    have hsp' : a.elems.length + n ≤ a.nAllocated := hsp
    refine ⟨⟨?_, hab2⟩, hd'⟩
    show (a.elems.take p ++ (List.replicate n v ++ a.elems.drop p)).length ≤
      a.nAllocated
    rw [List.length_append, List.length_append, List.length_take,
      List.length_drop, List.length_replicate]
    omega
  case isFalse =>
    cases hcalc : calcNewCapacityForGrowthBy D a n with
    | error e =>
      rw [hcalc] at h
      simp [bind, Except.bind] at h
    | ok c =>
      rw [hcalc] at h
      simp only [bind, Except.bind] at h
      injection h with h
      subst h
      have hb := calc_ok_bounds D a hcalc
      have hb1 : a.nAllocated + n ≤ c := hb.2.1
      refine ⟨⟨?_, ?_⟩, hb.2.2.2⟩
      · show (a.elems.take p ++ (List.replicate n v ++ a.elems.drop p)).length ≤ c
        rw [List.length_append, List.length_append, List.length_take,
          List.length_drop, List.length_replicate]
        omega
      · intro h0
        have h0' : c = 0 := h0
        show (c == 0) = true
        simp [h0']

theorem insertOne_inv (D : IndexDesc) (a : Arr α) (p : Nat) (v : α)
    {a' : Arr α} (hab : invAB a) (hd : invD D a)
    (h : insertOne D a p v = .ok a') : invAB a' ∧ invD D a' := by
  have hab1 : a.elems.length ≤ a.nAllocated := hab.1
  have hab2 : a.nAllocated = 0 → a.dataNull = true := hab.2
  have hd' : a.nAllocated ≤ D.maxSize := hd
  unfold insertOne errCheck at h
  split at h
  case isFalse => exact absurd h (by simp)
  case isTrue hpc =>
  have hp : p ≤ a.elems.length := of_decide_eq_true hpc
  split at h
  case isTrue hsp =>
    injection h with h
    subst h
    have hsp' : a.elems.length + 1 ≤ a.nAllocated := hsp
    refine ⟨⟨?_, hab2⟩, hd'⟩
    show (a.elems.take p ++ (v :: a.elems.drop p)).length ≤ a.nAllocated
    rw [List.length_append, List.length_cons, List.length_take,
      List.length_drop]
    omega
  case isFalse =>
    cases hcalc : calcNewCapacityForGrowthBy D a 1 with
    | error e =>
      rw [hcalc] at h
      simp [bind, Except.bind] at h
    | ok c =>
      rw [hcalc] at h
      simp only [bind, Except.bind] at h
      injection h with h
      subst h
      have hb := calc_ok_bounds D a hcalc
      have hb1 : a.nAllocated + 1 ≤ c := hb.2.1
      refine ⟨⟨?_, ?_⟩, hb.2.2.2⟩
      · show (a.elems.take p ++ (v :: a.elems.drop p)).length ≤ c
        rw [List.length_append, List.length_cons, List.length_take,
          List.length_drop]
        omega
      · intro h0
        have h0' : c = 0 := h0
        show (c == 0) = true
        simp [h0']

theorem insertPtr_inv [Inhabited α] (D : IndexDesc) (a : Arr α) (p : Nat)
    (r : SrcRange α) {a' : Arr α} (hab : invAB a) (hd : invD D a)
    (h : insertPtr D a p r = .ok a') : invAB a' ∧ invD D a' := by
  have hab1 : a.elems.length ≤ a.nAllocated := hab.1
  have hab2 : a.nAllocated = 0 → a.dataNull = true := hab.2
  have hd' : a.nAllocated ≤ D.maxSize := hd
  unfold insertPtr errCheck at h
  split at h
  case isFalse => exact absurd h (by simp)
  case isTrue =>
  split at h
  case isFalse => exact absurd h (by simp)
  case isTrue =>
  split at h
  case isFalse => exact absurd h (by simp)
  case isTrue =>
  split at h
  case isFalse => exact absurd h (by simp)
  case isTrue hpc =>
  have hp : p ≤ a.elems.length := of_decide_eq_true hpc
  split at h
  · injection h with h
    subst h
    exact ⟨hab, hd⟩
  split at h
  case isTrue hsp =>
    injection h with h
    subst h
    have hsp' : a.elems.length + srcLen r ≤ a.nAllocated := hsp
    refine ⟨⟨?_, hab2⟩, hd'⟩
    show (a.elems.take p ++ (srcVals a r ++ a.elems.drop p)).length ≤
      a.nAllocated
    rw [List.length_append, List.length_append, List.length_take,
      List.length_drop, srcVals_length]
    omega
  case isFalse =>
    cases hcalc : calcNewCapacityForGrowthBy D a (srcLen r) with
    | error e =>
      rw [hcalc] at h
      simp [bind, Except.bind] at h
    | ok c =>
      rw [hcalc] at h
      simp only [bind, Except.bind] at h
      injection h with h
      subst h
      have hb := calc_ok_bounds D a hcalc
      have hb1 : a.nAllocated + srcLen r ≤ c := hb.2.1
      refine ⟨⟨?_, ?_⟩, hb.2.2.2⟩
      · show (a.elems.take p ++ (srcVals a r ++ a.elems.drop p)).length ≤ c
        rw [List.length_append, List.length_append, List.length_take,
          List.length_drop, srcVals_length]
        omega
      · intro h0
        have h0' : c = 0 := h0
        show (c == 0) = true
        simp [h0']

/-! ## C2: the invariant-preservation claim -/

/-- C2 counterexample: for the `unsigned` index type, `reserve(0x80000000)` —
a value its `size_type` can represent — applied to a default-constructed
container (which satisfies all the invariants) succeeds and leaves the
container with capacity `0x80000000`, violating invariant (d)
`capacity ≤ max_size`.  So not every public operation preserves the
invariants. -/
theorem c2_invariants_cex :
    invAB (ctorDefault : Arr Nat) ∧ invD unsignedDesc (ctorDefault : Arr Nat) ∧
    opWF unsignedDesc (Op.opReserve (α := Nat) 2147483648) ∧
    applyOp unsignedDesc (ctorDefault : Arr Nat) (.opReserve 2147483648) =
      .ok { dataNull := false, elems := [], nAllocated := 2147483648 } ∧
    ¬ invD unsignedDesc
        { dataNull := false, elems := ([] : List Nat), nAllocated := 2147483648 } :=
  ⟨⟨Nat.le_refl 0, fun _ => rfl⟩,
   Nat.zero_le _,
   show (2147483648 : Nat) ≤ unsignedDesc.sizeTypeMax by decide,
   rfl,
   by
     intro h
     exact absurd (show (2147483648 : Nat) ≤ unsignedDesc.maxSize from h)
       (by decide)⟩

/-- C2 amended: every public mutating operation (with representable arguments,
and a well-formed partner for `swap`) preserves invariants (a) `length ≤
capacity` and (b) `capacity = 0 → null buffer`; invariant (d) `capacity ≤
max_size` is also preserved whenever every representable `size_type` value is
within `max_size` (as for the default `int` index type).  For index types such
as `unsigned` whose `size_type` exceeds `max_size`, `reserve` (and `resize`,
which delegates to it) can drive the capacity above `max_size`; every other
operation checks its growth against `max_size` unconditionally. -/
theorem c2_invariants_amended [Inhabited α] (D : IndexDesc) (op : Op α)
    (a a' : Arr α) (hab : invAB a) (hd : invD D a) (hop : opWF D op)
    (hok : applyOp D a op = .ok a') :
    invAB a' ∧ (D.sizeTypeMax ≤ D.maxSize → invD D a') := by
  have hab1 : a.elems.length ≤ a.nAllocated := hab.1
  have hab2 : a.nAllocated = 0 → a.dataNull = true := hab.2
  have hd' : a.nAllocated ≤ D.maxSize := hd
  cases op with
  | opAssignFill n v =>
    simp only [applyOp] at hok
    rw [assignFill_eq] at hok
    have h := assignImplRA_inv D a _ hab hd hok
    exact ⟨h.1, fun _ => h.2⟩
  | opAssignRange r =>
    simp only [applyOp] at hok
    unfold assignPtr errCheck at hok
    split at hok
    case isFalse => exact absurd hok (by simp)
    case isTrue =>
      split at hok
      case isFalse => exact absurd hok (by simp)
      case isTrue =>
        have h := assignImplRA_inv D a _ hab hd hok
        exact ⟨h.1, fun _ => h.2⟩
  | opSelfAssign =>
    simp only [applyOp] at hok
    unfold copyAssign at hok
    rw [if_pos rfl] at hok
    injection hok with hok
    subst hok
    exact ⟨hab, fun _ => hd⟩
  | opCopyAssign src =>
    simp only [applyOp] at hok
    unfold copyAssign at hok
    rw [if_neg (by simp)] at hok
    have h := assignImplRA_inv D a _ hab hd hok
    exact ⟨h.1, fun _ => h.2⟩
  | opConvAssign xs =>
    simp only [applyOp] at hok
    unfold convAssign at hok
    have h := assignImplRA_inv D a _ hab hd hok
    exact ⟨h.1, fun _ => h.2⟩
  | opSwap other =>
    simp only [applyOp] at hok
    injection hok with hok
    subst hok
    have hop' : invAB other ∧ invD D other := hop
    exact ⟨hop'.1, fun _ => hop'.2⟩
  | opResize n =>
    simp only [applyOp] at hok
    injection hok with hok
    subst hok
    have hr := resize_inv a n hab
    refine ⟨hr.1, fun hstm => ?_⟩
    have hop' : n ≤ D.sizeTypeMax := hop
    have hcap := hr.2
    show (resize a n).nAllocated ≤ D.maxSize
    omega
  | opResizeFill n v =>
    simp only [applyOp] at hok
    injection hok with hok
    subst hok
    have hr := resizeFill_inv a n v hab
    refine ⟨hr.1, fun hstm => ?_⟩
    have hop' : n ≤ D.sizeTypeMax := hop
    have hcap := hr.2
    show (resizeFill a n v).nAllocated ≤ D.maxSize
    omega
  | opReserve n =>
    simp only [applyOp] at hok
    injection hok with hok
    subst hok
    have hop' : n ≤ D.sizeTypeMax := hop
    unfold reserve
    split
    · exact ⟨hab, fun _ => hd⟩
    · next hlt =>
      refine ⟨⟨?_, ?_⟩, ?_⟩
      · show a.elems.length ≤ n
        have hlt' : ¬a.nAllocated ≥ n := hlt
        omega
      · intro h0
        have h0' : n = 0 := h0
        show (n == 0) = true
        simp [h0']
      · intro hstm
        show n ≤ D.maxSize
        omega
  | opClear =>
    simp only [applyOp] at hok
    injection hok with hok
    subst hok
    exact ⟨⟨Nat.zero_le _, hab2⟩, fun _ => hd'⟩
  | opEraseRange f l =>
    simp only [applyOp] at hok
    unfold eraseRange errCheck at hok
    split at hok
    case isFalse => exact absurd hok (by simp)
    case isTrue hcond =>
      have hc : f ≤ l ∧ l ≤ a.size := of_decide_eq_true hcond
      have hc2 : l ≤ a.elems.length := hc.2
      injection hok with hok
      subst hok
      refine ⟨⟨?_, hab2⟩, fun _ => hd'⟩
      show (a.elems.take f ++ a.elems.drop l).length ≤ a.nAllocated
      rw [List.length_append, List.length_take, List.length_drop]
      have hc1 := hc.1
      omega
  | opEraseOne p =>
    simp only [applyOp] at hok
    unfold eraseOne errCheck at hok
    split at hok
    case isFalse => exact absurd hok (by simp)
    case isTrue hcond =>
      have hc : p < a.elems.length := of_decide_eq_true hcond
      injection hok with hok
      subst hok
      refine ⟨⟨?_, hab2⟩, fun _ => hd'⟩
      show (a.elems.take p ++ a.elems.drop (p + 1)).length ≤ a.nAllocated
      rw [List.length_append, List.length_take, List.length_drop]
      omega
  | opEraseFast p =>
    simp only [applyOp] at hok
    injection hok with hok
    subst hok
    unfold eraseFast
    split
    · refine ⟨⟨?_, hab2⟩, fun _ => hd'⟩
      show ((a.elems.set p (a.elems.getLastD default)).dropLast).length ≤
        a.nAllocated
      rw [List.length_dropLast, List.length_set]
      omega
    · exact ⟨hab, fun _ => hd⟩
  | opInsertFill p n v =>
    simp only [applyOp] at hok
    have h := insertFill_inv D a p n v hab hd hok
    exact ⟨h.1, fun _ => h.2⟩
  | opInsertOne p v =>
    simp only [applyOp] at hok
    have h := insertOne_inv D a p v hab hd hok
    exact ⟨h.1, fun _ => h.2⟩
  | opInsertRange p r =>
    simp only [applyOp] at hok
    have h := insertPtr_inv D a p r hab hd hok
    exact ⟨h.1, fun _ => h.2⟩
  | opPushBack v =>
    simp only [applyOp] at hok
    have h := push_back_inv D a v hab hd hok
    exact ⟨h.1, fun _ => h.2⟩
  | opPushBackDefault =>
    simp only [applyOp] at hok
    rw [show push_back_default D a = push_back D a default from rfl] at hok
    have h := push_back_inv D a default hab hd hok
    exact ⟨h.1, fun _ => h.2⟩
  | opRawPushBack =>
    simp only [applyOp] at hok
    rw [show raw_push_back D a = push_back D a default from rfl] at hok
    have h := push_back_inv D a default hab hd hok
    exact ⟨h.1, fun _ => h.2⟩
  | opPopBack =>
    simp only [applyOp] at hok
    unfold pop_back errCheck at hok
    split at hok
    case isFalse => exact absurd hok (by simp)
    case isTrue =>
      injection hok with hok
      subst hok
      refine ⟨⟨?_, hab2⟩, fun _ => hd'⟩
      show a.elems.dropLast.length ≤ a.nAllocated
      rw [List.length_dropLast]
      omega

/-- Witness for C2 amended: a `push_back` on a default-constructed `int`-index
container. -/
theorem c2_invariants_amended_witness :
    (invAB (ctorDefault : Arr Nat) ∧ invD intDesc (ctorDefault : Arr Nat) ∧
      opWF intDesc (Op.opPushBack (5 : Nat)) ∧
      applyOp intDesc (ctorDefault : Arr Nat) (.opPushBack 5) =
        .ok { dataNull := false, elems := [5], nAllocated := 4 }) ∧
    (invAB { dataNull := false, elems := ([5] : List Nat), nAllocated := 4 } ∧
      (intDesc.sizeTypeMax ≤ intDesc.maxSize →
        invD intDesc { dataNull := false, elems := ([5] : List Nat), nAllocated := 4 })) := by
  have h1 : invAB (ctorDefault : Arr Nat) := ⟨Nat.le_refl 0, fun _ => rfl⟩
  have h2 : invD intDesc (ctorDefault : Arr Nat) := Nat.zero_le _
  have h3 : opWF intDesc (Op.opPushBack (5 : Nat)) := trivial
  have h4 : applyOp intDesc (ctorDefault : Arr Nat) (.opPushBack 5) =
      .ok { dataNull := false, elems := [5], nAllocated := 4 } := rfl
  exact ⟨⟨h1, h2, h3, h4⟩,
    c2_invariants_amended intDesc (Op.opPushBack 5) ctorDefault
      { dataNull := false, elems := [5], nAllocated := 4 } h1 h2 h3 h4⟩

end SimbodyArray
